import Mathlib

/-!
Verification of the vibeflow-cli core against its specification.

The Go sources are embedded shallowly:

* Go strings are Lean `String`s; all manipulation is implemented on the
  underlying `List Char` (`String.data`) with structurally recursive
  functions so that the kernel can evaluate them and proofs can proceed
  by induction.
* `time.Time` / `time.Duration` values are modelled as `Int` nanoseconds;
  `time.Now()` becomes an explicit `now` argument.
* Go `int` is modelled as `Int` (no claim in scope depends on 64-bit
  overflow behaviour).
* Compiled regular expressions are modelled as executable `String → Bool`
  matchers, one per regex literal, translated from RE2 semantics
  (unanchored search, `^` matches only at the start of the text because
  no `(?m)` flag is set, `\s` is `[\t\n\f\r ]`, `\b` is an ASCII word
  boundary, `(?i)` is modelled as ASCII case folding).
* Subprocess results (tmux session listing, send-keys success) are passed
  in explicitly; the file system is modelled by passing the marker-file
  content as an `Option String`.
-/

/-! ### Character classes -/

/-- Decimal digit, as in the regex class between 0 and 9. -/
def isDigitChar (c : Char) : Bool :=
  decide (48 ≤ c.toNat) && decide (c.toNat ≤ 57)

/-- Lowercase hexadecimal digit, the class of 0-9 and a-f. -/
def isLowerHexChar (c : Char) : Bool :=
  isDigitChar c || (decide (97 ≤ c.toNat) && decide (c.toNat ≤ 102))

/-- ASCII word character, the RE2 class of letters, digits and underscore
used by word boundaries. -/
def isWordChar (c : Char) : Bool :=
  (decide (48 ≤ c.toNat) && decide (c.toNat ≤ 57)) ||
  (decide (65 ≤ c.toNat) && decide (c.toNat ≤ 90)) ||
  (decide (97 ≤ c.toNat) && decide (c.toNat ≤ 122)) ||
  c.toNat == 95

/-- Whitespace recognised by Go unicode.IsSpace as used by
strings.TrimSpace: ASCII space, tab, newline, vertical tab, form feed,
carriage return, plus NEL, NBSP and the Unicode space code points. -/
def goIsSpace (c : Char) : Bool :=
  c.toNat == 32 || c.toNat == 9 || c.toNat == 10 || c.toNat == 11 ||
  c.toNat == 12 || c.toNat == 13 || c.toNat == 0x85 || c.toNat == 0xA0 ||
  c.toNat == 0x1680 ||
  (decide (0x2000 ≤ c.toNat) && decide (c.toNat ≤ 0x200A)) ||
  c.toNat == 0x2028 || c.toNat == 0x2029 || c.toNat == 0x202F ||
  c.toNat == 0x205F || c.toNat == 0x3000

/-- RE2 whitespace class: tab, newline, form feed, carriage return, space. -/
def reSpaceChar (c : Char) : Bool :=
  c.toNat == 9 || c.toNat == 10 || c.toNat == 12 || c.toNat == 13 ||
  c.toNat == 32

/-- ASCII lowercase folding used to model the RE2 case-insensitive flag. -/
def lowerChar (c : Char) : Char :=
  if 65 ≤ c.toNat ∧ c.toNat ≤ 90 then Char.ofNat (c.toNat + 32) else c

/-! ### List-of-characters primitives -/

/-- listStartsWith l p is true when p is a leading segment of l
(Go strings.HasPrefix on the character level). -/
def listStartsWith : List Char → List Char → Bool
  | _, [] => true
  | [], _ :: _ => false
  | c :: cs, p :: ps => c = p && listStartsWith cs ps

/-- Remove the literal pattern p from the front of l, or fail
(Go strings.CutPrefix on the character level). -/
def dropLiteral : List Char → List Char → Option (List Char)
  | [], l => some l
  | _ :: _, [] => none
  | p :: ps, c :: cs => if c = p then dropLiteral ps cs else none

/-- Case-insensitive variant of dropLiteral; the pattern is given already
lowercased. -/
def dropLiteralCI : List Char → List Char → Option (List Char)
  | [], l => some l
  | _ :: _, [] => none
  | p :: ps, c :: cs => if lowerChar c = p then dropLiteralCI ps cs else none

/-- Case-insensitive listStartsWith; the pattern is given lowercased. -/
def ciStartsWith : List Char → List Char → Bool
  | _, [] => true
  | [], _ :: _ => false
  | c :: cs, p :: ps => lowerChar c = p && ciStartsWith cs ps

/-- Check the predicate at every suffix of the text - the unanchored
search of a regex engine. -/
def anySuffix (check : List Char → Bool) : List Char → Bool
  | [] => check []
  | c :: cs => check (c :: cs) || anySuffix check cs

/-- Like anySuffix but the predicate also sees the preceding character.
Needed to model RE2 word boundaries. -/
def anyPosPrev (check : Option Char → List Char → Bool) : Option Char → List Char → Bool
  | prev, [] => check prev []
  | prev, c :: cs => check prev (c :: cs) || anyPosPrev check (some c) cs

/-- Substring test (Go strings.Contains on the character level). -/
def containsChars (l pat : List Char) : Bool :=
  anySuffix (fun suf => listStartsWith suf pat) l

/-- Go strings.Split with separator newline: the list of segments between
newline characters. -/
def splitOnNL : List Char → List (List Char)
  | [] => [[]]
  | c :: cs =>
    let r := splitOnNL cs
    if c = '\n' then [] :: r
    else
      match r with
      | [] => [[c]]
      | h :: t => (c :: h) :: t

/-- Go strings.Join with separator newline. -/
def joinNL : List (List Char) → List Char
  | [] => []
  | [l] => l
  | l :: ls => l ++ '\n' :: joinNL ls

/-- Drop Go whitespace from the front. -/
def trimLeftSpace (l : List Char) : List Char := l.dropWhile goIsSpace

/-- Drop Go whitespace from the back. -/
def trimRightSpace (l : List Char) : List Char :=
  (l.reverse.dropWhile goIsSpace).reverse

/-- Go strings.TrimSpace on the character level. -/
def goTrimSpaceChars (l : List Char) : List Char :=
  trimRightSpace (trimLeftSpace l)

/-! ### String wrappers -/

/-- Go strings.TrimSpace. -/
def goTrimSpace (s : String) : String := ⟨goTrimSpaceChars s.data⟩

/-- Go strings.HasPrefix. -/
def strStartsWith (s p : String) : Bool := listStartsWith s.data p.data

/-- Go strings.Contains. -/
def strContains (s sub : String) : Bool := containsChars s.data sub.data

/-! ### Session id grammar

Modelled from the spec: the session-id format
session-YYYYMMDD-HHMMSS-XXXXXXXX, i.e. the regular expression
session-\d{8}-\d{6}-[0-9a-f]{8} of the Naming section. The generator
itself (sessionid.GenerateSessionID) formats a timestamp and a random
hex string and is not needed by the claims, which quantify over ids
matching this grammar. -/

/-- Consume exactly n characters satisfying q, or fail. -/
def charsMatch (q : Char → Bool) : Nat → List Char → Option (List Char)
  | 0, l => some l
  | _ + 1, [] => none
  | n + 1, c :: cs => if q c then charsMatch q n cs else none

/-- Consume one hyphen, or fail. -/
def expectDash : List Char → Option (List Char)
  | c :: cs => if c = '-' then some cs else none
  | [] => none

/-- Character-level session-id grammar check. -/
def validSessionIDChars (l : List Char) : Bool :=
  (((((dropLiteral ("session-".data) l).bind
      (charsMatch isDigitChar 8)).bind expectDash).bind
      (charsMatch isDigitChar 6)).bind expectDash).bind
      (charsMatch isLowerHexChar 8) == some []

/-- A string matching the session-id grammar of the spec. -/
def validSessionID (s : String) : Bool := validSessionIDChars s.data

/-! ### Basic lemmas about the primitives -/

theorem listStartsWith_append (p r : List Char) : listStartsWith (p ++ r) p = true := by
  induction p with
  | nil => cases r <;> rfl
  | cons c cs ih => simpa [listStartsWith] using ih

theorem listStartsWith_eq_append {l p : List Char} (h : listStartsWith l p = true) :
    ∃ r, l = p ++ r := by
  induction p generalizing l with
  | nil => exact ⟨l, rfl⟩
  | cons c cs ih =>
    cases l with
    | nil => simp [listStartsWith] at h
    | cons x xs =>
      simp only [listStartsWith, Bool.and_eq_true, decide_eq_true_eq] at h
      obtain ⟨rfl, h2⟩ := h
      obtain ⟨r, rfl⟩ := ih h2
      exact ⟨r, rfl⟩

theorem dropLiteral_append (p r : List Char) : dropLiteral p (p ++ r) = some r := by
  induction p with
  | nil => rfl
  | cons c cs ih => simp [dropLiteral, ih]

theorem dropLiteral_eq_append {p l r : List Char} (h : dropLiteral p l = some r) :
    l = p ++ r := by
  induction p generalizing l with
  | nil => simpa [dropLiteral] using h
  | cons c cs ih =>
    cases l with
    | nil => simp [dropLiteral] at h
    | cons x xs =>
      by_cases hx : x = c
      · subst hx
        simp only [dropLiteral, if_pos rfl] at h
        simpa using ih h
      · simp [dropLiteral, hx] at h

theorem charsMatch_eq_append {q : Char → Bool} {n : Nat} {l r : List Char}
    (h : charsMatch q n l = some r) :
    ∃ pre, l = pre ++ r ∧ (∀ c ∈ pre, q c = true) := by
  induction n generalizing l with
  | zero =>
    refine ⟨[], ?_, by simp⟩
    simpa [charsMatch] using h
  | succ n ih =>
    cases l with
    | nil => simp [charsMatch] at h
    | cons x xs =>
      by_cases hx : q x = true
      · simp only [charsMatch, if_pos hx] at h
        obtain ⟨pre, rfl, hpre⟩ := ih h
        refine ⟨x :: pre, rfl, ?_⟩
        intro c hc
        rcases List.mem_cons.mp hc with rfl | hc
        · exact hx
        · exact hpre c hc
      · simp [charsMatch, hx] at h

theorem dropWhile_eq_self_of_all {p : Char → Bool} {l : List Char}
    (h : ∀ c ∈ l, p c = false) : l.dropWhile p = l := by
  cases l with
  | nil => rfl
  | cons c cs => simp [List.dropWhile_cons, h c (by simp)]

theorem splitOnNL_no_newline {l : List Char} (h : ∀ c ∈ l, c ≠ '\n') :
    splitOnNL l = [l] := by
  induction l with
  | nil => rfl
  | cons c cs ih =>
    have hc : c ≠ '\n' := h c (by simp)
    have : splitOnNL cs = [cs] := ih fun x hx => h x (by simp [hx])
    simp [splitOnNL, this, hc]

theorem expectDash_eq_some {l r : List Char} (h : expectDash l = some r) :
    l = '-' :: r := by
  cases l with
  | nil => simp [expectDash] at h
  | cons c cs =>
    simp only [expectDash] at h
    split at h
    · rename_i hc
      injection h with h
      subst hc
      subst h
      rfl
    · simp at h

/-- Characters of a valid session id: non-space (in particular not a
newline) and the string starts with session-. -/
theorem validSessionIDChars_shape {l : List Char} (h : validSessionIDChars l = true) :
    (∀ c ∈ l, goIsSpace c = false) ∧ l ≠ [] ∧
    listStartsWith l ("session-".data) = true := by
  unfold validSessionIDChars at h
  rw [beq_iff_eq] at h
  rw [Option.bind_eq_some] at h
  obtain ⟨u5, h, h5⟩ := h
  rw [Option.bind_eq_some] at h
  obtain ⟨u4, h, h4⟩ := h
  rw [Option.bind_eq_some] at h
  obtain ⟨u3, h, h3⟩ := h
  rw [Option.bind_eq_some] at h
  obtain ⟨u2, h, h2⟩ := h
  rw [Option.bind_eq_some] at h
  obtain ⟨u1, h1, hm1⟩ := h
  have e1 : l = "session-".data ++ u1 := dropLiteral_eq_append h1
  obtain ⟨d8, e2, hd8⟩ := charsMatch_eq_append hm1
  have e3 : u2 = '-' :: u3 := expectDash_eq_some h2
  obtain ⟨d6, e4, hd6⟩ := charsMatch_eq_append h3
  have e5 : u4 = '-' :: u5 := expectDash_eq_some h4
  obtain ⟨h8, e6, hh8⟩ := charsMatch_eq_append h5
  have hdig : ∀ x, isDigitChar x = true → goIsSpace x = false := by
    intro x hx
    simp only [isDigitChar, Bool.and_eq_true, decide_eq_true_eq] at hx
    simp only [goIsSpace, Bool.or_eq_false_iff, beq_eq_false_iff_ne, ne_eq,
      Bool.and_eq_false_iff, decide_eq_false_iff_not, not_le]
    omega
  have hhex : ∀ x, isLowerHexChar x = true → goIsSpace x = false := by
    intro x hx
    simp only [isLowerHexChar, isDigitChar, Bool.or_eq_true,
      Bool.and_eq_true, decide_eq_true_eq] at hx
    simp only [goIsSpace, Bool.or_eq_false_iff, beq_eq_false_iff_ne, ne_eq,
      Bool.and_eq_false_iff, decide_eq_false_iff_not, not_le]
    omega
  subst e1 e2 e3 e4 e5 e6
  refine ⟨?_, by simp, listStartsWith_append _ _⟩
  intro c hc
  simp only [List.append_nil, List.mem_append, List.mem_cons] at hc
  rcases hc with hc | hc | rfl | hc | rfl | hc
  · rcases hc with rfl | rfl | rfl | rfl | rfl | rfl | rfl | rfl | hc <;> try decide
    simp at hc
  · exact hdig c (hd8 c hc)
  · decide
  · exact hdig c (hd6 c hc)
  · decide
  · exact hhex c (hh8 c hc)

/-- All-non-space strings survive a left trim. -/
theorem trimLeftSpace_eq_self {l : List Char} (h : ∀ c ∈ l, goIsSpace c = false) :
    trimLeftSpace l = l :=
  dropWhile_eq_self_of_all h

/-- All-non-space strings survive a right trim. -/
theorem trimRightSpace_eq_self {l : List Char} (h : ∀ c ∈ l, goIsSpace c = false) :
    trimRightSpace l = l := by
  unfold trimRightSpace
  rw [dropWhile_eq_self_of_all (by intro c hc; exact h c (List.mem_reverse.mp hc))]
  exact List.reverse_reverse l

/-- TrimSpace is the identity on all-non-space strings. -/
theorem goTrimSpaceChars_eq_self {l : List Char} (h : ∀ c ∈ l, goIsSpace c = false) :
    goTrimSpaceChars l = l := by
  unfold goTrimSpaceChars
  rw [trimLeftSpace_eq_self h, trimRightSpace_eq_self h]

/-- TrimSpace of a non-space string followed by one newline recovers the
string, exactly the round trip of the marker file writer. -/
theorem goTrimSpaceChars_append_newline {l : List Char} (hne : l ≠ [])
    (h : ∀ c ∈ l, goIsSpace c = false) :
    goTrimSpaceChars (l ++ ['\n']) = l := by
  unfold goTrimSpaceChars
  have hleft : trimLeftSpace (l ++ ['\n']) = l ++ ['\n'] := by
    unfold trimLeftSpace
    cases l with
    | nil => exact absurd rfl hne
    | cons c cs =>
      simp [List.dropWhile_cons, h c (by simp)]
  rw [hleft]
  unfold trimRightSpace
  rw [List.reverse_append]
  have : ((['\n'].reverse ++ l.reverse).dropWhile goIsSpace) = l.reverse := by
    simp only [List.reverse_cons, List.reverse_nil, List.nil_append, List.singleton_append,
      List.dropWhile_cons]
    rw [if_pos (by decide)]
    exact dropWhile_eq_self_of_all (by intro c hc; exact h c (List.mem_reverse.mp hc))
  rw [this, List.reverse_reverse]

/-! ### Conflict detection (sessions file / marker file)

Embeds the persona-aware conflict detector: ConflictStatus,
ConflictResult, CheckConflict, WriteSessionFile, readSessionFileID and
parseSessionFile, together with the two TmuxManager operations they use
(FindSessionBySessionID and HasSession). The tmux server is modelled by
the list of live session names it would report; a nil TmuxManager
pointer is the none case of an Option. Reading the marker file is
modelled by passing the file content as an Option String (none for a
read error / missing file). -/

/-- Live view of the tmux server: the session names list-sessions would
print. -/
structure TmuxModel where
  liveSessions : List String
deriving DecidableEq

/-- ListSessions keeps only sessions whose name begins with the reserved
prefix vibeflow_. -/
def listVibeflowSessions (tm : TmuxModel) : List String :=
  tm.liveSessions.filter (fun n => strStartsWith n "vibeflow_")

/-- FindSessionBySessionID: first live vibeflow session whose name
contains the id as a substring, or the empty string. -/
def findSessionBySessionID (tm : TmuxModel) (sessionID : String) : String :=
  match (listVibeflowSessions tm).find? (fun n => strContains n sessionID) with
  | some n => n
  | none => ""

/-- ensurePrefix of the TmuxManager: add vibeflow_ unless present. -/
def ensurePfx (name : String) : String :=
  if strStartsWith name "vibeflow_" then name else "vibeflow_" ++ name

/-- HasSession: tmux has-session succeeds exactly when the (prefixed)
name is live. -/
def hasSession (tm : TmuxModel) (name : String) : Bool :=
  (tm.liveSessions.contains (ensurePfx name))

/-- Conflict classification statuses. -/
inductive ConflictStatus
  | noConflict
  | activeConflict
  | staleConflict
  | externalConflict
deriving DecidableEq, Repr

/-- Outcome of a conflict check. -/
structure ConflictResult where
  status : ConflictStatus
  sessionID : String
  persona : String
  provider : String
  tmuxSession : String
  filePath : String
deriving DecidableEq, Repr

/-- Marker filename for a persona: .vibeflow-session, or
.vibeflow-session-{persona}. -/
def sessionFileForPersona (persona : String) : String :=
  if persona = "" then ".vibeflow-session" else ".vibeflow-session-" ++ persona

/-- One key=value line of the marker file: provider= and tmux_session=
update the accumulator when their value is non-empty; anything else
(including persona=) is ignored. -/
def parseKVLine (acc : List Char × List Char) (line : List Char) :
    List Char × List Char :=
  let kv := goTrimSpaceChars line
  match dropLiteral ("provider=".data) kv with
  | some v => (if v ≠ [] then v else acc.1, acc.2)
  | none =>
    match dropLiteral ("tmux_session=".data) kv with
    | some v => (acc.1, if v ≠ [] then v else acc.2)
    | none => acc

/-- Character-level parseSessionFile: first line is the session id
(must start with session-); later lines may carry provider= and
tmux_session= keys, empty values ignored; provider defaults to claude.
The len(lines) == 0 guard of the source is dead code because Split
never returns an empty slice, so the first line is the head of the
split. -/
def parseSessionFileChars (content : List Char) :
    List Char × List Char × List Char :=
  let lines := splitOnNL content
  let sessionID := goTrimSpaceChars (lines.headD [])
  if listStartsWith sessionID ("session-".data) then
    let pv := lines.tail.foldl parseKVLine ("claude".data, ([] : List Char))
    (sessionID, pv.1, pv.2)
  else ([], "claude".data, [])

/-- parseSessionFile on strings: (sessionID, provider, tmuxSession). -/
def parseSessionFile (content : String) : String × String × String :=
  let r := parseSessionFileChars content.data
  (⟨r.1⟩, ⟨r.2.1⟩, ⟨r.2.2⟩)

/-- readSessionFileID given the marker-file read result. -/
def readSessionFileID (fileData : Option String) : String × String × String :=
  match fileData with
  | none => ("", "", "")
  | some data =>
    let content := goTrimSpace data
    if content = "" then ("", "", "")
    else parseSessionFile content

/-- WriteSessionFile stores the bare session id followed by a newline. -/
def writeSessionFileContent (sessionID : String) : String := sessionID ++ "\n"

/-- Characters before the first hyphen, or none when no hyphen occurs
(Go strings.Index returning -1). -/
def takeUntilDash : List Char → Option (List Char)
  | [] => none
  | c :: cs => if c = '-' then some [] else (takeUntilDash cs).map (c :: ·)

/-- Derive the provider from a tmux name vibeflow_{provider}-{name};
keep the fallback when the prefix is absent or the hyphen position is
not positive. -/
def providerFromTmuxName (found fallback : String) : String :=
  match dropLiteral ("vibeflow_".data) found.data with
  | none => fallback
  | some after =>
    match takeUntilDash after with
    | some (c :: cs) => ⟨c :: cs⟩
    | _ => fallback

/-- HasSession through a possibly nil TmuxManager pointer: the Go
condition tmux != nil && tmux.HasSession(name). -/
def tmuxIsLive (tmux : Option TmuxModel) (name : String) : Bool :=
  match tmux with
  | none => false
  | some tm => hasSession tm name

/-- Zero-valued ConflictResult with a status, as the Go literal
ConflictResult{Status: ...}. -/
def statusOnly (st : ConflictStatus) : ConflictResult :=
  { status := st, sessionID := "", persona := "", provider := "",
    tmuxSession := "", filePath := "" }

/-- CheckConflict: reads the persona marker file of dir and classifies
the directory. fileData is the result of reading that file; tmux is the
(possibly nil) TmuxManager. -/
def checkConflict (dir persona : String) (fileData : Option String)
    (tmux : Option TmuxModel) : ConflictResult :=
  let fp := dir ++ "/" ++ sessionFileForPersona persona
  match fileData with
  | none => statusOnly .noConflict
  | some data =>
    let content := goTrimSpace data
    if content = "" then statusOnly .noConflict
    else
      let parsed := parseSessionFile content
      let sessionID := parsed.1
      let provider := parsed.2.1
      let tmuxSession := parsed.2.2
      if sessionID = "" then statusOnly .noConflict
      else
        let scanned :=
          if tmuxSession = "" then
            match tmux with
            | none => (tmuxSession, provider)
            | some tm =>
              let found := findSessionBySessionID tm sessionID
              if found ≠ "" then (found, providerFromTmuxName found provider)
              else (tmuxSession, provider)
          else (tmuxSession, provider)
        let status :=
          if scanned.1 ≠ "" && tmuxIsLive tmux scanned.1 then
            ConflictStatus.activeConflict
          else ConflictStatus.staleConflict
        { status := status, sessionID := sessionID, persona := persona,
          provider := scanned.2, tmuxSession := scanned.1, filePath := fp }

/-- A disconnected mux: either a nil TmuxManager, or a TmuxManager whose
server reports no live sessions. -/
def muxDisconnected : Option TmuxModel → Bool
  | none => true
  | some tm => tm.liveSessions.isEmpty

/-! ### Lemmas for the marker round trip -/

theorem validSessionID_shape {id : String} (h : validSessionID id = true) :
    (∀ c ∈ id.data, goIsSpace c = false) ∧ id.data ≠ [] ∧
    strStartsWith id "session-" = true :=
  validSessionIDChars_shape h

theorem goTrimSpace_write {id : String} (hne : id.data ≠ [])
    (h : ∀ c ∈ id.data, goIsSpace c = false) :
    goTrimSpace (writeSessionFileContent id) = id := by
  unfold writeSessionFileContent goTrimSpace
  have hd : (id ++ "\n").data = id.data ++ ['\n'] := String.data_append id "\n"
  rw [hd, goTrimSpaceChars_append_newline hne h]

theorem parseSessionFile_valid {id : String} (hv : validSessionID id = true) :
    parseSessionFile id = (id, "claude", "") := by
  obtain ⟨hns, hne, hsw⟩ := validSessionID_shape hv
  have hnl : ∀ c ∈ id.data, c ≠ '\n' := by
    intro c hc he
    have := hns c hc
    rw [he] at this
    simp [goIsSpace] at this
  have hchars : parseSessionFileChars id.data = (id.data, "claude".data, []) := by
    simp only [parseSessionFileChars]
    rw [splitOnNL_no_newline hnl]
    simp only [List.headD_cons, List.tail_cons, List.foldl_nil]
    rw [goTrimSpaceChars_eq_self hns]
    split
    · rfl
    · rename_i hfalse
      exact absurd hsw hfalse
  simp only [parseSessionFile, hchars]

theorem readSessionFileID_roundtrip {id : String} (hv : validSessionID id = true) :
    readSessionFileID (some (writeSessionFileContent id)) = (id, "claude", "") := by
  obtain ⟨hns, hne, _⟩ := validSessionID_shape hv
  have hne' : id ≠ "" := by
    intro he
    apply hne
    rw [he]
  simp only [readSessionFileID]
  rw [goTrimSpace_write hne hns, if_neg hne']
  exact parseSessionFile_valid hv

theorem findSessionBySessionID_empty (sessionID : String) :
    findSessionBySessionID ⟨[]⟩ sessionID = "" := rfl

/-- C3: for every (dir, persona, id) with id matching the session-id
grammar, writing the marker file and reading it back yields
(id, claude, no tmux binding), and a conflict check against a
disconnected mux (nil adapter or a server with no live sessions)
classifies the directory as stale or external, never active and never
none. (The code always picks stale here.) -/
theorem marker_round_trip (dir persona id : String) (tmux : Option TmuxModel)
    (hid : validSessionID id = true) (hmux : muxDisconnected tmux = true) :
    readSessionFileID (some (writeSessionFileContent id)) = (id, "claude", "") ∧
    ((checkConflict dir persona (some (writeSessionFileContent id)) tmux).status =
        ConflictStatus.staleConflict ∨
      (checkConflict dir persona (some (writeSessionFileContent id)) tmux).status =
        ConflictStatus.externalConflict) ∧
    (checkConflict dir persona (some (writeSessionFileContent id)) tmux).status ≠
      ConflictStatus.activeConflict ∧
    (checkConflict dir persona (some (writeSessionFileContent id)) tmux).status ≠
      ConflictStatus.noConflict := by
  obtain ⟨hns, hne, _⟩ := validSessionID_shape hid
  have hne' : id ≠ "" := by
    intro he
    apply hne
    rw [he]
  have hstat : (checkConflict dir persona (some (writeSessionFileContent id)) tmux).status =
      ConflictStatus.staleConflict := by
    simp only [checkConflict]
    rw [goTrimSpace_write hne hns, if_neg hne', parseSessionFile_valid hid]
    simp only [if_neg hne']
    cases tmux with
    | none => simp
    | some tm =>
      have : tm.liveSessions = [] := by
        simpa [muxDisconnected, List.isEmpty_iff] using hmux
      rcases tm with ⟨ls⟩
      simp only at this
      subst this
      simp [findSessionBySessionID, listVibeflowSessions, tmuxIsLive, hasSession]
  refine ⟨readSessionFileID_roundtrip hid, Or.inl hstat, ?_, ?_⟩ <;> rw [hstat] <;> simp

/-- C3 witness: a concrete id, persona and disconnected mux. -/
theorem marker_round_trip_witness :
    readSessionFileID (some (writeSessionFileContent "session-20260101-010101-0123abcd")) =
      ("session-20260101-010101-0123abcd", "claude", "") ∧
    ((checkConflict "/tmp/w" "dev"
        (some (writeSessionFileContent "session-20260101-010101-0123abcd")) none).status =
        ConflictStatus.staleConflict ∨
      (checkConflict "/tmp/w" "dev"
        (some (writeSessionFileContent "session-20260101-010101-0123abcd")) none).status =
        ConflictStatus.externalConflict) ∧
    (checkConflict "/tmp/w" "dev"
        (some (writeSessionFileContent "session-20260101-010101-0123abcd")) none).status ≠
      ConflictStatus.activeConflict ∧
    (checkConflict "/tmp/w" "dev"
        (some (writeSessionFileContent "session-20260101-010101-0123abcd")) none).status ≠
      ConflictStatus.noConflict :=
  marker_round_trip "/tmp/w" "dev" "session-20260101-010101-0123abcd" none
    (by decide) (by decide)

/-- C2: a marker file with a valid session id and no tmux_session
binding, checked with a nil mux adapter, is classified stale by the
code, not external: CheckConflict never returns ExternalConflict. -/
theorem checkConflict_nil_mux_stale :
    (checkConflict "/work" "" (some "session-20260101-010101-aaaaaaaa\n") none).status =
      ConflictStatus.staleConflict ∧
    (checkConflict "/work" "" (some "session-20260101-010101-aaaaaaaa\n") none).status ≠
      ConflictStatus.externalConflict := by
  decide

/-! ### Error-pattern registry

Embeds error_patterns.go. Each compiled regex of DefaultPatterns is
modelled by an executable matcher translated from the RE2 semantics of
that exact regex literal; the Go regexp package anchors nothing by
default, so every matcher scans all start positions, and caret matches
only at the start of the text since (?m) is not set. Case-insensitive
patterns use ASCII folding (the Kelvin-sign and long-s Unicode folding
corner cases of RE2 are not modelled; no claim depends on them). -/

/-- severity of an error pattern. -/
inductive ErrorSeverity
  | recoverable
  | fatal
deriving DecidableEq, Repr

/-- A known error signature from an agent provider. The compiled Regex
field is modelled by the regexMatches predicate. -/
structure ErrorPattern where
  provider : String
  regexMatches : String → Bool
  severity : ErrorSeverity
  recoveryMessage : String
  requiresBackoff : Bool
  description : String

/-- Tail of regex API Error:\s*5\d{2} after the literal and the spaces:
a five followed by two digits. -/
def fiveDigitDigit : List Char → Bool
  | '5' :: c1 :: c2 :: _ => isDigitChar c1 && isDigitChar c2
  | _ => false

/-- Regex API Error:\s*5\d{2} at one start position. -/
def apiError5xxAt (l : List Char) : Bool :=
  match dropLiteral ("API Error:".data) l with
  | none => false
  | some r => fiveDigitDigit (r.dropWhile reSpaceChar)

/-- Regex API Error:\s*{code} at one start position, for a literal code. -/
def apiErrorCodeAt (code : List Char) (l : List Char) : Bool :=
  match dropLiteral ("API Error:".data) l with
  | none => false
  | some r => listStartsWith (r.dropWhile reSpaceChar) code

/-- Matcher of regex API Error:\s*5\d{2}. -/
def matchClaude5xx (s : String) : Bool := anySuffix apiError5xxAt s.data

/-- Matcher of regex API Error:\s*529. -/
def matchClaude529 (s : String) : Bool :=
  anySuffix (apiErrorCodeAt ("529".data)) s.data

/-- Matcher of regex API Error:\s*429. -/
def matchClaude429 (s : String) : Bool :=
  anySuffix (apiErrorCodeAt ("429".data)) s.data

/-- Case-insensitive word sequence separated by \s+ (one or more spaces),
at one start position; the words are given lowercased. -/
def ciWordsAt : List (List Char) → List Char → Bool
  | [], _ => true
  | [w], l => (dropLiteralCI w l).isSome
  | w :: ws, l =>
    match dropLiteralCI w l with
    | none => false
    | some (c :: cs) => reSpaceChar c && ciWordsAt ws (cs.dropWhile reSpaceChar)
    | some [] => false

/-- Matcher of regex (?i)connection\s+refused. -/
def matchConnectionRefused (s : String) : Bool :=
  anySuffix (ciWordsAt ["connection".data, "refused".data]) s.data

/-- True when the position before the match is a word boundary. -/
def boundaryBefore : Option Char → Bool
  | none => true
  | some c => !(isWordChar c)

/-- True when the position after the match is a word boundary. -/
def boundaryAfter : List Char → Bool
  | [] => true
  | c :: _ => !(isWordChar c)

/-- Alternative \bETIMEDOUT\b at one position. -/
def etimedoutAt (prev : Option Char) (l : List Char) : Bool :=
  boundaryBefore prev &&
    match dropLiteralCI ("etimedout".data) l with
    | none => false
    | some r => boundaryAfter r

/-- The \s*out\b tail of the timed?\s*out alternative. -/
def timedOutTail (m : List Char) : Bool :=
  match dropLiteralCI ("out".data) (m.dropWhile reSpaceChar) with
  | none => false
  | some rest => boundaryAfter rest

/-- Alternative \btimed?\s*out\b at one position: time, an optional d,
spaces, out. -/
def timedOutAt (prev : Option Char) (l : List Char) : Bool :=
  boundaryBefore prev &&
    match dropLiteralCI ("time".data) l with
    | none => false
    | some [] => timedOutTail []
    | some (c :: cs) =>
      (decide (lowerChar c = 'd') && timedOutTail cs) || timedOutTail (c :: cs)

/-- Matcher of regex (?i)\bETIMEDOUT\b|\btimed?\s*out\b. -/
def matchClaudeTimeout (s : String) : Bool :=
  anyPosPrev (fun prev l => etimedoutAt prev l || timedOutAt prev l) none s.data

/-- Matcher of regex (?i)OpenAI\s+API\s+error. -/
def matchCodexAPIError (s : String) : Bool :=
  anySuffix (ciWordsAt ["openai".data, "api".data, "error".data]) s.data

/-- Matcher of regex (?i)rate\s+limit\s+exceeded. -/
def matchCodexRateLimit (s : String) : Bool :=
  anySuffix (ciWordsAt ["rate".data, "limit".data, "exceeded".data]) s.data

/-- Matcher of regex RESOURCE_EXHAUSTED (case sensitive literal). -/
def matchGeminiResourceExhausted (s : String) : Bool :=
  strContains s "RESOURCE_EXHAUSTED"

/-- The .*INTERNAL tail: any run of non-newline characters followed by
the case-insensitive literal internal. -/
def googleApiInternalTail : List Char → Bool
  | [] => false
  | c :: cs =>
    ciStartsWith (c :: cs) ("internal".data) ||
    (decide (c ≠ '\n') && googleApiInternalTail cs)

/-- Alternative google\.api.*INTERNAL at one start position. -/
def googleApiInternalAt (l : List Char) : Bool :=
  match dropLiteralCI ("google.api".data) l with
  | none => false
  | some r => googleApiInternalTail r

/-- Matcher of regex (?i)INTERNAL\s+server\s+error|google\.api.*INTERNAL. -/
def matchGeminiInternal (s : String) : Bool :=
  anySuffix (ciWordsAt ["internal".data, "server".data, "error".data]) s.data ||
  anySuffix googleApiInternalAt s.data

/-- Matcher of regex ^panic: (caret anchors to the start of the text;
no multi-line flag is set). -/
def matchPanic (s : String) : Bool := strStartsWith s "panic:"

/-- Matcher of regex ^fatal error:. -/
def matchFatalError (s : String) : Bool := strStartsWith s "fatal error:"

/-- DefaultPatterns entry: Claude API 5xx server error. -/
def claude5xxPattern : ErrorPattern :=
  { provider := "claude", regexMatches := matchClaude5xx,
    severity := .recoverable,
    recoveryMessage := "The previous API call failed with a server error. Please retry the last operation.",
    requiresBackoff := false,
    description := "Claude API 5xx server error" }

/-- DefaultPatterns entry: Claude API overloaded (529). -/
def claude529Pattern : ErrorPattern :=
  { provider := "claude", regexMatches := matchClaude529,
    severity := .recoverable,
    recoveryMessage := "The API is overloaded. Please wait a moment and retry the last operation.",
    requiresBackoff := true,
    description := "Claude API overloaded (529)" }

/-- DefaultPatterns entry: Claude API rate limit (429). -/
def claude429Pattern : ErrorPattern :=
  { provider := "claude", regexMatches := matchClaude429,
    severity := .recoverable,
    recoveryMessage := "Rate limit hit. Please wait and retry the last operation.",
    requiresBackoff := true,
    description := "Claude API rate limit (429)" }

/-- DefaultPatterns entry: Claude connection refused. -/
def claudeConnRefusedPattern : ErrorPattern :=
  { provider := "claude", regexMatches := matchConnectionRefused,
    severity := .recoverable,
    recoveryMessage := "Connection was refused. Please retry the last operation.",
    requiresBackoff := true,
    description := "Claude connection refused" }

/-- DefaultPatterns entry: Claude connection timeout. -/
def claudeTimeoutPattern : ErrorPattern :=
  { provider := "claude", regexMatches := matchClaudeTimeout,
    severity := .recoverable,
    recoveryMessage := "The request timed out. Please retry the last operation.",
    requiresBackoff := true,
    description := "Claude connection timeout" }

/-- DefaultPatterns entry: Codex API error. -/
def codexAPIErrorPattern : ErrorPattern :=
  { provider := "codex", regexMatches := matchCodexAPIError,
    severity := .recoverable,
    recoveryMessage := "The OpenAI API returned an error. Please retry the last operation.",
    requiresBackoff := false,
    description := "Codex API error" }

/-- DefaultPatterns entry: Codex rate limit. -/
def codexRateLimitPattern : ErrorPattern :=
  { provider := "codex", regexMatches := matchCodexRateLimit,
    severity := .recoverable,
    recoveryMessage := "Rate limit exceeded. Please wait and retry the last operation.",
    requiresBackoff := true,
    description := "Codex rate limit" }

/-- DefaultPatterns entry: Gemini resource exhausted. -/
def geminiResourceExhaustedPattern : ErrorPattern :=
  { provider := "gemini", regexMatches := matchGeminiResourceExhausted,
    severity := .recoverable,
    recoveryMessage := "Gemini resource quota exhausted. Please wait and retry the last operation.",
    requiresBackoff := true,
    description := "Gemini resource exhausted" }

/-- DefaultPatterns entry: Gemini internal error. -/
def geminiInternalPattern : ErrorPattern :=
  { provider := "gemini", regexMatches := matchGeminiInternal,
    severity := .recoverable,
    recoveryMessage := "Gemini internal server error. Please retry the last operation.",
    requiresBackoff := false,
    description := "Gemini internal error" }

/-- DefaultPatterns entry: Go panic (fatal, universal). -/
def panicPattern : ErrorPattern :=
  { provider := "*", regexMatches := matchPanic,
    severity := .fatal, recoveryMessage := "",
    requiresBackoff := false, description := "Go panic (fatal)" }

/-- DefaultPatterns entry: fatal error (fatal, universal). -/
def fatalErrorPattern : ErrorPattern :=
  { provider := "*", regexMatches := matchFatalError,
    severity := .fatal, recoveryMessage := "",
    requiresBackoff := false, description := "Fatal error (fatal)" }

/-- DefaultPatterns: the built-in table, in source order. -/
def defaultPatterns : List ErrorPattern :=
  [claude5xxPattern, claude529Pattern, claude429Pattern,
   claudeConnRefusedPattern, claudeTimeoutPattern,
   codexAPIErrorPattern, codexRateLimitPattern,
   geminiResourceExhaustedPattern, geminiInternalPattern,
   panicPattern, fatalErrorPattern]

/-- Match of ErrorPatternRegistry: walk the table in order, skip entries
whose provider filter is neither universal nor the given provider, and
return the first whose regex matches. -/
def registryMatch : List ErrorPattern → String → String → Option ErrorPattern
  | [], _, _ => none
  | p :: ps, provider, output =>
    if p.provider != "*" && p.provider != provider then
      registryMatch ps provider output
    else if p.regexMatches output then some p
    else registryMatch ps provider output

/-- AddPattern appends a custom pattern to the registry. -/
def addPattern (r : List ErrorPattern) (p : ErrorPattern) : List ErrorPattern :=
  r ++ [p]

/-! ### C1 lemmas -/

theorem anySuffix_mono {f g : List Char → Bool} (h : ∀ l, f l = true → g l = true) :
    ∀ l, anySuffix f l = true → anySuffix g l = true := by
  intro l hl
  induction l with
  | nil =>
    simp only [anySuffix] at hl ⊢
    exact h [] hl
  | cons c cs ih =>
    simp only [anySuffix, Bool.or_eq_true] at hl ⊢
    rcases hl with h1 | h2
    · exact Or.inl (h _ h1)
    · exact Or.inr (ih h2)

theorem apiError5xx_of_529 (l : List Char)
    (h : apiErrorCodeAt ("529".data) l = true) : apiError5xxAt l = true := by
  unfold apiErrorCodeAt at h
  unfold apiError5xxAt
  cases e : dropLiteral ("API Error:".data) l with
  | none => rw [e] at h; simp at h
  | some r =>
    rw [e] at h
    obtain ⟨rest, hm⟩ := listStartsWith_eq_append h
    show fiveDigitDigit (r.dropWhile reSpaceChar) = true
    rw [hm]
    show fiveDigitDigit ('5' :: '2' :: '9' :: rest) = true
    simp [fiveDigitDigit, isDigitChar]

/-- C1: in the default table the broad 5xx entry precedes the 529 entry,
so a claude text containing API Error: 529 is matched by the 5xx entry,
whose requires-backoff flag is false; moreover every text matched by the
529 regex is matched by the 5xx regex, so the 529 entry (backoff true)
is unreachable through Match. This refutes the claimed ordering. -/
theorem claude529_shadowed_by_5xx :
    registryMatch defaultPatterns "claude" "API Error: 529" = some claude5xxPattern ∧
    claude5xxPattern.requiresBackoff = false ∧
    claude529Pattern.requiresBackoff = true ∧
    (∀ text : String, matchClaude529 text = true → matchClaude5xx text = true) := by
  refine ⟨rfl, rfl, rfl, ?_⟩
  intro text h
  exact anySuffix_mono apiError5xx_of_529 text.data h

/-- C1 witness: a concrete text matched by both the 529 regex and the
5xx regex. -/
theorem claude529_shadowed_by_5xx_witness :
    matchClaude529 "API Error: 529" = true ∧
    matchClaude5xx "API Error: 529" = true :=
  ⟨by decide, claude529_shadowed_by_5xx.2.2.2 "API Error: 529" (by decide)⟩

/-! ### Health monitor

Embeds health_monitor.go. time.Time values are Int nanoseconds;
time.Now() is the explicit now argument of each operation. The tmux
SendKeys subprocess outcome is the explicit sendOK argument of
AttemptRecovery; the returned Option String is the text passed to
SendKeys (none when no keystrokes are sent) and the returned Bool is
the error result. Logging has no state effect and is dropped. -/

/-- Health states of a monitored session. -/
inductive HealthStatus
  | healthy
  | errorDetected
  | recovering
  | failed
deriving DecidableEq, Repr

/-- Per-session health and recovery state. -/
structure SessionHealth where
  sessionName : String
  provider : String
  status : HealthStatus
  lastErrorAt : Int
  matchedPattern : Option ErrorPattern
  recoveryCount : Int
  lastRecoveryAt : Int
  backoffUntil : Int
  lastOutput : String

/-- Settings for automatic error detection and recovery. -/
structure ErrorRecoveryConfig where
  enabled : Bool
  maxRetries : Int
  debounceSeconds : Int
  backoffMultiplier : Int
deriving DecidableEq, Repr

/-- One second in the Int-nanosecond model of time.Duration. -/
def nanosecondsPerSecond : Int := 1000000000

/-- lastNLines: the last n lines of s, or s itself when it has at most
n lines. -/
def lastNLines (s : String) (n : Nat) : String :=
  let lines := splitOnNL s.data
  if lines.length ≤ n then s
  else ⟨joinNL (lines.drop (lines.length - n))⟩

/-- getOrCreate: the zero-valued entry stored for a new session. -/
def newSessionHealth (name provider : String) : SessionHealth :=
  { sessionName := name, provider := provider, status := .healthy,
    lastErrorAt := 0, matchedPattern := none, recoveryCount := 0,
    lastRecoveryAt := 0, backoffUntil := 0, lastOutput := "" }

/-- shouldRecover: fail the session when the recovery count has reached
max retries, otherwise request a recovery. -/
def shouldRecoverStep (cfg : ErrorRecoveryConfig) (sh : SessionHealth) :
    SessionHealth × Bool :=
  if sh.recoveryCount ≥ cfg.maxRetries then ({ sh with status := .failed }, false)
  else (sh, true)

/-- CheckOutput on one session entry: scan the last 10 lines, drive the
state machine, and report whether a recovery attempt should be
triggered. -/
def checkOutputHealth (cfg : ErrorRecoveryConfig) (reg : List ErrorPattern)
    (sh : SessionHealth) (provider output : String) (isAttached : Bool)
    (now : Int) : SessionHealth × Bool :=
  if !cfg.enabled then (sh, false)
  else if sh.status = .failed then (sh, false)
  else
    match registryMatch reg provider (lastNLines output 10) with
    | none =>
      if sh.status = .errorDetected ∨ sh.status = .recovering then
        ({ sh with status := .healthy, recoveryCount := 0,
                   matchedPattern := none, lastOutput := output }, false)
      else ({ sh with lastOutput := output }, false)
    | some m =>
      if m.severity = .fatal then
        ({ sh with status := .failed, matchedPattern := some m,
                   lastErrorAt := now }, false)
      else
        match sh.status with
        | .healthy =>
          ({ sh with status := .errorDetected, lastErrorAt := now,
                     matchedPattern := some m, lastOutput := output }, false)
        | .errorDetected =>
          if now - sh.lastErrorAt < cfg.debounceSeconds * nanosecondsPerSecond then
            (sh, false)
          else if output ≠ sh.lastOutput then
            ({ sh with lastErrorAt := now, lastOutput := output }, false)
          else if isAttached then (sh, false)
          else shouldRecoverStep cfg sh
        | .recovering =>
          if now < sh.backoffUntil then (sh, false)
          else if output = sh.lastOutput then
            (if isAttached then (sh, false) else shouldRecoverStep cfg sh)
          else
            ({ sh with status := .errorDetected, lastErrorAt := now,
                       lastOutput := output }, false)
        | .failed => (sh, false)

/-- AttemptRecovery on one session entry: look up the matched pattern,
send its recovery message (sendOK is the SendKeys outcome), then bump
the count, move to recovering, compute the exponential backoff
30s * multiplier^(count-1), and fail when the count reaches max
retries. The returned middle component is the text sent, the last the
error flag. -/
def attemptRecoveryHealth (cfg : ErrorRecoveryConfig) (sh : SessionHealth)
    (sendOK : Bool) (now : Int) : SessionHealth × Option String × Bool :=
  match sh.matchedPattern with
  | none => (sh, none, false)
  | some pat =>
    if pat.recoveryMessage = "" then (sh, none, false)
    else if !sendOK then (sh, some pat.recoveryMessage, true)
    else
      let cnt := sh.recoveryCount + 1
      let multiplier := if cfg.backoffMultiplier < 1 then 2 else cfg.backoffMultiplier
      let backoff := 30 * nanosecondsPerSecond * multiplier ^ (cnt - 1).toNat
      let sh1 := { sh with recoveryCount := cnt, lastRecoveryAt := now,
                           status := .recovering, backoffUntil := now + backoff }
      if cnt ≥ cfg.maxRetries then
        ({ sh1 with status := .failed }, some pat.recoveryMessage, false)
      else (sh1, some pat.recoveryMessage, false)

/-- ResetSession on one session entry. -/
def resetHealth (sh : SessionHealth) : SessionHealth :=
  { sh with status := .healthy, recoveryCount := 0, matchedPattern := none,
            backoffUntil := 0 }

/-- The sessions map of the HealthMonitor, keyed by tmux session name. -/
structure HealthMonitorState where
  sessions : List (String × SessionHealth)

/-- Map lookup on the sessions association list. -/
def lookupSession : List (String × SessionHealth) → String → Option SessionHealth
  | [], _ => none
  | (k, v) :: rest, name => if k = name then some v else lookupSession rest name

/-- In-place update of one entry of the sessions map (Go mutates the
entry through its pointer). -/
def updateSession : List (String × SessionHealth) → String → SessionHealth →
    List (String × SessionHealth)
  | [], _, _ => []
  | (k, v) :: rest, name, sh =>
    if k = name then (k, sh) :: rest else (k, v) :: updateSession rest name sh

/-- AttemptRecovery at monitor level: untracked sessions, sessions with
no matched pattern and patterns with an empty recovery message return
success immediately with the map untouched; a SendKeys error leaves the
map untouched too. -/
def attemptRecoveryM (cfg : ErrorRecoveryConfig) (st : HealthMonitorState)
    (sessionName : String) (sendOK : Bool) (now : Int) :
    HealthMonitorState × Option String × Bool :=
  match lookupSession st.sessions sessionName with
  | none => (st, none, false)
  | some sh =>
    let r := attemptRecoveryHealth cfg sh sendOK now
    match r.2.1 with
    | none => (st, none, false)
    | some msg =>
      if r.2.2 then (st, some msg, true)
      else ({ sessions := updateSession st.sessions sessionName r.1 }, some msg, false)

/-! ### C5: no action while attached -/

/-- One CheckOutput input: provider, captured output, attached flag and
capture time. -/
structure CheckCall where
  provider : String
  output : String
  isAttached : Bool
  now : Int

/-- Run a sequence of CheckOutput calls on one session, collecting the
recovery requests each call returns. -/
def runChecks (cfg : ErrorRecoveryConfig) (reg : List ErrorPattern) :
    SessionHealth → List CheckCall → SessionHealth × List Bool
  | sh, [] => (sh, [])
  | sh, c :: cs =>
    let r := checkOutputHealth cfg reg sh c.provider c.output c.isAttached c.now
    let rest := runChecks cfg reg r.1 cs
    (rest.1, r.2 :: rest.2)

theorem checkOutput_attached_no_action (cfg : ErrorRecoveryConfig)
    (reg : List ErrorPattern) (sh : SessionHealth) (provider output : String)
    (now : Int) :
    (checkOutputHealth cfg reg sh provider output true now).2 = false := by
  unfold checkOutputHealth shouldRecoverStep
  repeat' split
  all_goals first
  | rfl
  | exact absurd rfl (by assumption)

/-- C5: for every sequence of check-output calls in which the session is
attached in every call, no call requests a recovery, so attempt-recovery
is never triggered. -/
theorem attached_never_triggers (cfg : ErrorRecoveryConfig)
    (reg : List ErrorPattern) (sh : SessionHealth) (calls : List CheckCall)
    (h : ∀ c ∈ calls, c.isAttached = true) :
    ((runChecks cfg reg sh calls).2.all (fun b => !b)) = true := by
  induction calls generalizing sh with
  | nil => rfl
  | cons c cs ih =>
    simp only [runChecks, List.all_cons, Bool.and_eq_true]
    refine ⟨?_, ih _ (fun x hx => h x (by simp [hx]))⟩
    have hc : c.isAttached = true := h c (by simp)
    rw [hc, checkOutput_attached_no_action]
    rfl

/-- C5 witness: two concrete attached captures with an error signature. -/
theorem attached_never_triggers_witness :
    ((runChecks ⟨true, 3, 0, 2⟩ defaultPatterns (newSessionHealth "s" "claude")
        [⟨"claude", "API Error: 500", true, 0⟩,
         ⟨"claude", "API Error: 500", true, 5⟩]).2.all (fun b => !b)) = true :=
  attached_never_triggers ⟨true, 3, 0, 2⟩ defaultPatterns
    (newSessionHealth "s" "claude")
    [⟨"claude", "API Error: 500", true, 0⟩, ⟨"claude", "API Error: 500", true, 5⟩]
    (by decide)

/-! ### C10: attempt-recovery no-op cases -/

/-- C10: attempt-recovery for an untracked session, a session with no
matched pattern, or a matched pattern with an empty recovery message
returns success, sends nothing, and leaves the whole sessions map
unchanged. -/
theorem attempt_recovery_noop (cfg : ErrorRecoveryConfig)
    (st : HealthMonitorState) (name : String) (sendOK : Bool) (now : Int)
    (h : lookupSession st.sessions name = none ∨
      ∃ sh, lookupSession st.sessions name = some sh ∧
        (sh.matchedPattern = none ∨
          ∃ p, sh.matchedPattern = some p ∧ p.recoveryMessage = "")) :
    attemptRecoveryM cfg st name sendOK now = (st, none, false) := by
  unfold attemptRecoveryM
  rcases h with h | ⟨sh, hsh, hpat⟩
  · rw [h]
  · rw [hsh]
    rcases hpat with hpat | ⟨p, hpat, hmsg⟩
    · simp only [attemptRecoveryHealth, hpat]
    · simp only [attemptRecoveryHealth, hpat, if_pos hmsg]

/-- C10 witness: an empty sessions map. -/
theorem attempt_recovery_noop_witness :
    attemptRecoveryM ⟨true, 3, 0, 2⟩ ⟨[]⟩ "vibeflow_x" true 7 = (⟨[]⟩, none, false) :=
  attempt_recovery_noop ⟨true, 3, 0, 2⟩ ⟨[]⟩ "vibeflow_x" true 7 (Or.inl rfl)

/-! ### C6: fatal panic handling -/

theorem checkOutput_failed_frozen (cfg : ErrorRecoveryConfig)
    (reg : List ErrorPattern) (sh : SessionHealth) (provider output : String)
    (isAttached : Bool) (now : Int) (h : sh.status = .failed) :
    checkOutputHealth cfg reg sh provider output isAttached now = (sh, false) := by
  unfold checkOutputHealth
  rw [h]
  simp

theorem registryMatch_none_of_no_match {ps : List ErrorPattern} {prov o : String}
    (hall : ∀ p ∈ ps, p.provider ≠ "*")
    (h : ∀ p ∈ ps, p.regexMatches o = false) :
    registryMatch ps prov o = none := by
  induction ps with
  | nil => rfl
  | cons p ps ih =>
    have hrec := ih (fun q hq => hall q (by simp [hq])) (fun q hq => h q (by simp [hq]))
    unfold registryMatch
    split
    · exact hrec
    · rw [h p (by simp)]
      simpa using hrec

theorem registryMatch_cons (p : ErrorPattern) (ps : List ErrorPattern)
    (prov o : String) :
    registryMatch (p :: ps) prov o =
      if (p.provider != "*" && p.provider != prov) = true then
        registryMatch ps prov o
      else if p.regexMatches o = true then some p
      else registryMatch ps prov o := rfl

theorem registryMatch_append_none {ps qs : List ErrorPattern} {prov o : String}
    (h : registryMatch ps prov o = none) :
    registryMatch (ps ++ qs) prov o = registryMatch qs prov o := by
  induction ps with
  | nil => rfl
  | cons p ps ih =>
    simp only [List.cons_append]
    rw [registryMatch_cons] at h
    rw [registryMatch_cons]
    by_cases hc : (p.provider != "*" && p.provider != prov) = true
    · rw [if_pos hc] at h ⊢
      exact ih h
    · rw [if_neg hc] at h ⊢
      by_cases hb : p.regexMatches o = true
      · rw [if_pos hb] at h
        exact absurd h (by simp)
      · rw [if_neg hb] at h ⊢
        exact ih h

/-- The two universal fatal entries are the tail of the default table. -/
theorem defaultPatterns_drop9 :
    defaultPatterns.drop 9 = [panicPattern, fatalErrorPattern] := rfl

theorem registryMatch_panic {prov tail : String}
    (htail : strStartsWith tail "panic:" = true)
    (hprov : ∀ p ∈ defaultPatterns, p.provider ≠ "*" → p.regexMatches tail = false) :
    registryMatch defaultPatterns prov tail = some panicPattern := by
  have hsplit : defaultPatterns = defaultPatterns.take 9 ++ defaultPatterns.drop 9 :=
    (List.take_append_drop 9 defaultPatterns).symm
  have hall : ∀ p ∈ defaultPatterns.take 9, p.provider ≠ "*" := by decide
  have hnone : registryMatch (defaultPatterns.take 9) prov tail = none :=
    registryMatch_none_of_no_match hall
      (fun p hp => hprov p (List.take_subset 9 defaultPatterns hp) (hall p hp))
  rw [hsplit, registryMatch_append_none hnone, defaultPatterns_drop9]
  unfold registryMatch
  rw [if_neg (by simp [panicPattern])]
  rw [if_pos (show panicPattern.regexMatches tail = true from htail)]

/-- C6 (amended): when the last-10-line tail of the captured text starts
with panic: and no provider-specific pattern matches the tail, the
first check-output call on a healthy session of any provider (with
monitoring enabled) moves it straight to failed without requesting any
action; every later check-output call returns no action and leaves it
failed; a manual reset returns it to healthy. -/
theorem panic_tail_fails_immediately (cfg : ErrorRecoveryConfig)
    (sh : SessionHealth) (provider output : String) (isAttached : Bool) (now : Int)
    (hen : cfg.enabled = true) (hsh : sh.status = .healthy)
    (htail : strStartsWith (lastNLines output 10) "panic:" = true)
    (hprov : ∀ p ∈ defaultPatterns, p.provider ≠ "*" →
      p.regexMatches (lastNLines output 10) = false) :
    (checkOutputHealth cfg defaultPatterns sh provider output isAttached now).2 = false ∧
    (checkOutputHealth cfg defaultPatterns sh provider output isAttached now).1.status =
      .failed ∧
    (checkOutputHealth cfg defaultPatterns sh provider output isAttached now).1.matchedPattern =
      some panicPattern ∧
    (∀ (p2 o2 : String) (a2 : Bool) (n2 : Int),
      checkOutputHealth cfg defaultPatterns
        (checkOutputHealth cfg defaultPatterns sh provider output isAttached now).1
        p2 o2 a2 n2 =
      ((checkOutputHealth cfg defaultPatterns sh provider output isAttached now).1, false)) ∧
    (resetHealth
      (checkOutputHealth cfg defaultPatterns sh provider output isAttached now).1).status =
      .healthy := by
  have hrun : checkOutputHealth cfg defaultPatterns sh provider output isAttached now =
      ({ sh with status := .failed, matchedPattern := some panicPattern,
                 lastErrorAt := now }, false) := by
    unfold checkOutputHealth
    rw [hen, hsh, registryMatch_panic htail hprov]
    rfl
  rw [hrun]
  refine ⟨rfl, rfl, rfl, ?_, rfl⟩
  intro p2 o2 a2 n2
  exact checkOutput_failed_frozen cfg defaultPatterns _ p2 o2 a2 n2 rfl

/-- C6 witness: the literal panic text of scenario S5 as the whole
capture. -/
theorem panic_tail_fails_immediately_witness :
    (checkOutputHealth ⟨true, 3, 0, 2⟩ defaultPatterns
        (newSessionHealth "s" "claude") "claude" "panic: runtime error" false 0).2 =
      false ∧
    (checkOutputHealth ⟨true, 3, 0, 2⟩ defaultPatterns
        (newSessionHealth "s" "claude") "claude" "panic: runtime error" false 0).1.status =
      HealthStatus.failed ∧
    (resetHealth (checkOutputHealth ⟨true, 3, 0, 2⟩ defaultPatterns
        (newSessionHealth "s" "claude") "claude" "panic: runtime error" false 0).1).status =
      HealthStatus.healthy := by
  have h := panic_tail_fails_immediately ⟨true, 3, 0, 2⟩
    (newSessionHealth "s" "claude") "claude" "panic: runtime error" false 0
    rfl rfl (by decide) (by decide)
  exact ⟨h.1, h.2.1, h.2.2.2.2⟩

/-- C6 counterexample: a capture containing panic: runtime error in its
second line is not matched by the caret-anchored panic regex, so the
first check-output call leaves the session healthy instead of moving it
to failed as claimed. -/
theorem panic_mid_text_stays_healthy :
    (checkOutputHealth ⟨true, 3, 0, 2⟩ defaultPatterns
        (newSessionHealth "s" "claude") "claude" "x\npanic: runtime error" false 0).1.status =
      HealthStatus.healthy ∧
    (checkOutputHealth ⟨true, 3, 0, 2⟩ defaultPatterns
        (newSessionHealth "s" "claude") "claude" "x\npanic: runtime error" false 0).1.status ≠
      HealthStatus.failed := by
  decide

/-! ### C4: failed is absorbing and entered only on fatal or exhausted
retries -/

/-- One operation of the health state machine on a single session. -/
inductive HealthOp
  | check (provider output : String) (isAttached : Bool) (now : Int)
  | recover (sendOK : Bool) (now : Int)

/-- Apply one check-output or attempt-recovery operation. -/
def applyOp (cfg : ErrorRecoveryConfig) (reg : List ErrorPattern)
    (sh : SessionHealth) : HealthOp → SessionHealth
  | .check p o a n => (checkOutputHealth cfg reg sh p o a n).1
  | .recover ok n => (attemptRecoveryHealth cfg sh ok n).1

/-- Apply a sequence of operations. -/
def applyOps (cfg : ErrorRecoveryConfig) (reg : List ErrorPattern) :
    SessionHealth → List HealthOp → SessionHealth
  | sh, [] => sh
  | sh, op :: ops => applyOps cfg reg (applyOp cfg reg sh op) ops

/-- States of one session reachable from its creation through
check-output, attempt-recovery and reset. -/
inductive ReachableHealth (cfg : ErrorRecoveryConfig) (reg : List ErrorPattern) :
    SessionHealth → Prop
  | init (name provider : String) :
      ReachableHealth cfg reg (newSessionHealth name provider)
  | step {sh : SessionHealth} (op : HealthOp) (h : ReachableHealth cfg reg sh) :
      ReachableHealth cfg reg (applyOp cfg reg sh op)
  | reset {sh : SessionHealth} (h : ReachableHealth cfg reg sh) :
      ReachableHealth cfg reg (resetHealth sh)

/-- Invariant justifying that failed is absorbing: a failed session
either has no matched pattern, or a pattern that sends nothing, or has
used up its retries. -/
def failedInv (cfg : ErrorRecoveryConfig) (sh : SessionHealth) : Prop :=
  sh.status = .failed →
    (sh.matchedPattern = none ∨
      (∃ p, sh.matchedPattern = some p ∧ p.recoveryMessage = "") ∨
      sh.recoveryCount ≥ cfg.maxRetries)

theorem registryMatch_mem {reg : List ErrorPattern} {prov o : String}
    {m : ErrorPattern} (h : registryMatch reg prov o = some m) : m ∈ reg := by
  induction reg with
  | nil => simp [registryMatch] at h
  | cons p ps ih =>
    rw [registryMatch_cons] at h
    split at h
    · exact List.mem_cons_of_mem _ (ih h)
    · split at h
      · injection h with h
        subst h
        exact List.mem_cons_self _ _
      · exact List.mem_cons_of_mem _ (ih h)

theorem failedInv_check (cfg : ErrorRecoveryConfig) (reg : List ErrorPattern)
    (hreg : ∀ p ∈ reg, p.severity = .fatal → p.recoveryMessage = "")
    (sh : SessionHealth) (hinv : failedInv cfg sh)
    (p o : String) (a : Bool) (n : Int) :
    failedInv cfg (checkOutputHealth cfg reg sh p o a n).1 := by
  unfold checkOutputHealth shouldRecoverStep
  repeat' split
  all_goals first
  | exact hinv
  | (intro hf; simp at hf; done)
  | (intro _; right; right; assumption)
  | (intro _; right; left;
     exact ⟨_, rfl, hreg _ (registryMatch_mem (by assumption)) (by assumption)⟩)

theorem failedInv_recover (cfg : ErrorRecoveryConfig) (sh : SessionHealth)
    (hinv : failedInv cfg sh) (ok : Bool) (n : Int) :
    failedInv cfg (attemptRecoveryHealth cfg sh ok n).1 := by
  simp only [attemptRecoveryHealth]
  repeat' split
  all_goals first
  | exact hinv
  | (intro hf; simp at hf; done)
  | (intro _; right; right; assumption)

theorem failedInv_step (cfg : ErrorRecoveryConfig) (reg : List ErrorPattern)
    (hreg : ∀ p ∈ reg, p.severity = .fatal → p.recoveryMessage = "")
    (sh : SessionHealth) (hinv : failedInv cfg sh) (op : HealthOp) :
    failedInv cfg (applyOp cfg reg sh op) := by
  cases op with
  | check p o a n => exact failedInv_check cfg reg hreg sh hinv p o a n
  | recover ok n => exact failedInv_recover cfg sh hinv ok n

theorem reachable_failedInv (cfg : ErrorRecoveryConfig) (reg : List ErrorPattern)
    (hreg : ∀ p ∈ reg, p.severity = .fatal → p.recoveryMessage = "")
    {sh : SessionHealth} (h : ReachableHealth cfg reg sh) : failedInv cfg sh := by
  induction h with
  | init name provider => intro hf; simp [newSessionHealth] at hf
  | step op _ ih => exact failedInv_step cfg reg hreg _ ih op
  | reset _ ih => intro hf; simp [resetHealth] at hf

theorem attemptRecovery_failed_frozen (cfg : ErrorRecoveryConfig)
    (sh : SessionHealth) (ok : Bool) (n : Int) (hf : sh.status = .failed)
    (hinv : failedInv cfg sh) :
    (attemptRecoveryHealth cfg sh ok n).1.status = .failed := by
  rcases hinv hf with hnone | ⟨p, hp, hmsg⟩ | hcnt
  · simp only [attemptRecoveryHealth, hnone]
    exact hf
  · simp only [attemptRecoveryHealth, hp, if_pos hmsg]
    exact hf
  · simp only [attemptRecoveryHealth]
    split
    · exact hf
    · split
      · exact hf
      · split
        · exact hf
        · split
          · rfl
          · rename_i hlt
            exact absurd (by omega : sh.recoveryCount + 1 ≥ cfg.maxRetries) hlt

theorem applyOp_failed (cfg : ErrorRecoveryConfig) (reg : List ErrorPattern)
    (sh : SessionHealth) (op : HealthOp) (hf : sh.status = .failed)
    (hinv : failedInv cfg sh) : (applyOp cfg reg sh op).status = .failed := by
  cases op with
  | check p o a n =>
    simp only [applyOp]
    rw [checkOutput_failed_frozen cfg reg sh p o a n hf]
    exact hf
  | recover ok n => exact attemptRecovery_failed_frozen cfg sh ok n hf hinv

theorem applyOps_failed (cfg : ErrorRecoveryConfig) (reg : List ErrorPattern)
    (hreg : ∀ p ∈ reg, p.severity = .fatal → p.recoveryMessage = "") :
    ∀ (ops : List HealthOp) (sh : SessionHealth), sh.status = .failed →
      failedInv cfg sh → (applyOps cfg reg sh ops).status = .failed := by
  intro ops
  induction ops with
  | nil => intro sh hf _; exact hf
  | cons op ops ih =>
    intro sh hf hinv
    simp only [applyOps]
    exact ih _ (applyOp_failed cfg reg sh op hf hinv)
      (failedInv_step cfg reg hreg sh hinv op)

/-- The ways the machine may enter failed: a fatal match during
check-output with the pre-state retries untouched, exhausted retries
during check-output, or the incremented count reaching max retries
during attempt-recovery. -/
def failedEntryOK (cfg : ErrorRecoveryConfig) (reg : List ErrorPattern)
    (sh : SessionHealth) : HealthOp → Prop
  | .check provider output _ _ =>
    (∃ m, registryMatch reg provider (lastNLines output 10) = some m ∧
      m.severity = .fatal) ∨
    sh.recoveryCount ≥ cfg.maxRetries
  | .recover _ _ => sh.recoveryCount + 1 ≥ cfg.maxRetries

theorem applyOp_enters_failed (cfg : ErrorRecoveryConfig)
    (reg : List ErrorPattern) (sh : SessionHealth) (op : HealthOp)
    (hpre : sh.status ≠ .failed)
    (hpost : (applyOp cfg reg sh op).status = .failed) :
    failedEntryOK cfg reg sh op := by
  cases op with
  | check p o a n =>
    simp only [applyOp] at hpost
    unfold checkOutputHealth shouldRecoverStep at hpost
    simp only [failedEntryOK]
    repeat' split at hpost
    all_goals first
    | exact absurd hpost hpre
    | (simp at hpost; done)
    | (right; assumption)
    | (left; exact ⟨_, by assumption, by assumption⟩)
  | recover ok n =>
    simp only [applyOp] at hpost
    simp only [attemptRecoveryHealth] at hpost
    simp only [failedEntryOK]
    repeat' split at hpost
    all_goals first
    | exact absurd hpost hpre
    | (simp at hpost; done)
    | assumption

/-- C4: on any reachable state of a registry whose fatal patterns carry
no recovery message (true of the default table), once the status is
failed no sequence of check-output or attempt-recovery operations moves
it anywhere else, reset returns it to healthy, and failed can only be
entered through a fatal match or a recovery count that has reached max
retries. -/
theorem health_failed_monotonic (cfg : ErrorRecoveryConfig)
    (reg : List ErrorPattern)
    (hreg : ∀ p ∈ reg, p.severity = .fatal → p.recoveryMessage = "")
    (sh : SessionHealth) (hsh : ReachableHealth cfg reg sh) :
    (sh.status = .failed →
      (∀ ops : List HealthOp, (applyOps cfg reg sh ops).status = .failed) ∧
      (resetHealth sh).status = .healthy) ∧
    (∀ op : HealthOp, sh.status ≠ .failed →
      (applyOp cfg reg sh op).status = .failed → failedEntryOK cfg reg sh op) := by
  have hinv : failedInv cfg sh := reachable_failedInv cfg reg hreg hsh
  constructor
  · intro hf
    exact ⟨fun ops => applyOps_failed cfg reg hreg ops sh hf hinv, rfl⟩
  · intro op hpre hpost
    exact applyOp_enters_failed cfg reg sh op hpre hpost

/-- C4 witness: a session failed by a fatal panic stays failed through
a recovery attempt and a clean capture, and reset heals it. -/
theorem health_failed_monotonic_witness :
    (applyOps ⟨true, 3, 0, 2⟩ defaultPatterns
        (applyOp ⟨true, 3, 0, 2⟩ defaultPatterns (newSessionHealth "s" "claude")
          (HealthOp.check "claude" "panic: boom" false 0))
        [HealthOp.recover true 5, HealthOp.check "claude" "all good" false 9]).status =
      HealthStatus.failed ∧
    (resetHealth (applyOp ⟨true, 3, 0, 2⟩ defaultPatterns
        (newSessionHealth "s" "claude")
        (HealthOp.check "claude" "panic: boom" false 0))).status =
      HealthStatus.healthy := by
  have h := health_failed_monotonic ⟨true, 3, 0, 2⟩ defaultPatterns (by decide)
    (applyOp ⟨true, 3, 0, 2⟩ defaultPatterns (newSessionHealth "s" "claude")
      (HealthOp.check "claude" "panic: boom" false 0))
    (ReachableHealth.step (HealthOp.check "claude" "panic: boom" false 0)
      (ReachableHealth.init "s" "claude"))
  have hf : (applyOp ⟨true, 3, 0, 2⟩ defaultPatterns (newSessionHealth "s" "claude")
      (HealthOp.check "claude" "panic: boom" false 0)).status =
      HealthStatus.failed := by decide
  exact ⟨(h.1 hf).1 _, (h.1 hf).2⟩

/-! ### Session store

Embeds store.go. The registry file guarded by withLock is modelled by
its parsed content, a list of SessionMeta; Add, Remove and Sync are the
transformers each operation passes to withLock (the locking itself
serialises file access and has no effect on the transformed state), and
Discover is the read-only cross-reference of live tmux names against
the store. time.Time is Int as before. -/

/-- Metadata persisted for one session. -/
structure SessionMeta where
  name : String
  tmuxSession : String
  provider : String
  project : String
  persona : String
  branch : String
  worktreePath : String
  workingDir : String
  vibeFlowSessionID : String
  createdAt : Int
deriving DecidableEq, Repr

/-- Add: drop any record with the same name, then append the new record. -/
def addTransform (m : SessionMeta) (sessions : List SessionMeta) :
    List SessionMeta :=
  (sessions.foldl (fun out x => if x.name != m.name then out ++ [x] else out) []) ++ [m]

/-- Remove: drop records with the given name. -/
def removeTransform (name : String) (sessions : List SessionMeta) :
    List SessionMeta :=
  sessions.foldl (fun out x => if x.name != name then out ++ [x] else out) []

/-- Sync: keep only records whose tmux session is in the active list
(the Go map of active names is modelled by list membership). -/
def syncTransform (activeTmux : List String) (sessions : List SessionMeta) :
    List SessionMeta :=
  sessions.foldl
    (fun out x => if activeTmux.contains x.tmuxSession then out ++ [x] else out) []

/-- The known map built by Discover: is a tmux name recorded in the
store. -/
def knownTmux (sessions : List SessionMeta) (n : String) : Bool :=
  sessions.any (fun m => m.tmuxSession == n)

/-- Discover: live tmux names that have no store record, in order. -/
def discoverNames (sessions : List SessionMeta) (liveTmuxNames : List String) :
    List String :=
  liveTmuxNames.foldl
    (fun acc n => if !(knownTmux sessions n) then acc ++ [n] else acc) []

/-- The registry invariant of the spec: stored mux session names are
pairwise distinct. -/
def distinctTmuxNames : List SessionMeta → Bool
  | [] => true
  | m :: rest =>
    !(rest.any (fun x => x.tmuxSession == m.tmuxSession)) && distinctTmuxNames rest

/-! ### Store lemmas -/

theorem foldl_append_filter {α : Type} (p : α → Bool) (l : List α) :
    ∀ acc, l.foldl (fun out x => if p x then out ++ [x] else out) acc =
      acc ++ l.filter p := by
  induction l with
  | nil => intro acc; simp
  | cons x xs ih =>
    intro acc
    by_cases hx : p x = true
    · simp [List.foldl_cons, List.filter_cons, hx, ih]
    · simp [List.foldl_cons, List.filter_cons, hx, ih]

theorem addTransform_eq (m : SessionMeta) (l : List SessionMeta) :
    addTransform m l = l.filter (fun x => x.name != m.name) ++ [m] := by
  unfold addTransform
  rw [foldl_append_filter]
  simp

theorem removeTransform_eq (name : String) (l : List SessionMeta) :
    removeTransform name l = l.filter (fun x => x.name != name) := by
  unfold removeTransform
  rw [foldl_append_filter]
  simp

theorem syncTransform_eq (active : List String) (l : List SessionMeta) :
    syncTransform active l = l.filter (fun x => active.contains x.tmuxSession) := by
  unfold syncTransform
  rw [foldl_append_filter]
  simp

theorem any_of_any_filter {α : Type} {p q : α → Bool} {l : List α}
    (h : (l.filter p).any q = true) : l.any q = true := by
  simp only [List.any_eq_true] at h ⊢
  obtain ⟨x, hx, hq⟩ := h
  exact ⟨x, (List.mem_filter.mp hx).1, hq⟩

theorem distinct_filter {p : SessionMeta → Bool} {l : List SessionMeta}
    (h : distinctTmuxNames l = true) : distinctTmuxNames (l.filter p) = true := by
  induction l with
  | nil => rfl
  | cons m rest ih =>
    simp only [distinctTmuxNames, Bool.and_eq_true, Bool.not_eq_true'] at h
    rw [List.filter_cons]
    by_cases hp : p m = true
    · rw [if_pos hp]
      simp only [distinctTmuxNames, Bool.and_eq_true, Bool.not_eq_true']
      refine ⟨?_, ih h.2⟩
      cases hfa : (rest.filter p).any (fun x => x.tmuxSession == m.tmuxSession) with
      | false => rfl
      | true => exact absurd (any_of_any_filter hfa) (by rw [h.1]; simp)
    · rw [if_neg hp]
      exact ih h.2

theorem distinct_append_single {l : List SessionMeta} {m : SessionMeta}
    (h : distinctTmuxNames l = true)
    (hm : ∀ x ∈ l, x.tmuxSession ≠ m.tmuxSession) :
    distinctTmuxNames (l ++ [m]) = true := by
  induction l with
  | nil => simp [distinctTmuxNames]
  | cons y rest ih =>
    simp only [distinctTmuxNames, Bool.and_eq_true, Bool.not_eq_true'] at h
    simp only [List.cons_append, distinctTmuxNames, Bool.and_eq_true,
      Bool.not_eq_true']
    refine ⟨?_, ih h.2 (fun x hx => hm x (by simp [hx]))⟩
    have h2 : (m.tmuxSession == y.tmuxSession) = false := by
      have := hm y (by simp)
      simpa [beq_eq_false_iff_ne] using fun he => this he.symm
    simp [List.any_append, h.1, h2]

/-- C7 counterexample: add of a record with a fresh name but a
duplicate mux name breaks the pairwise-distinct invariant. -/
theorem store_add_can_break_unique_tmux :
    distinctTmuxNames
      [⟨"a", "vibeflow_claude-a", "claude", "", "", "", "", "", "", 0⟩] = true ∧
    distinctTmuxNames (addTransform
      ⟨"b", "vibeflow_claude-a", "claude", "", "", "", "", "", "", 0⟩
      [⟨"a", "vibeflow_claude-a", "claude", "", "", "", "", "", "", 0⟩]) = false := by
  decide

/-- C7 (amended): remove and sync preserve pairwise-distinct mux names
from any state; add preserves them provided the added record's mux name
does not occur on any record with a different name (which holds when
mux names are derived injectively from record names). -/
theorem store_ops_preserve_unique_tmux (K : List SessionMeta) (m : SessionMeta)
    (name : String) (active : List String)
    (hK : distinctTmuxNames K = true)
    (hAdd : ∀ x ∈ K, x.name ≠ m.name → x.tmuxSession ≠ m.tmuxSession) :
    distinctTmuxNames (addTransform m K) = true ∧
    distinctTmuxNames (removeTransform name K) = true ∧
    distinctTmuxNames (syncTransform active K) = true := by
  refine ⟨?_, ?_, ?_⟩
  · rw [addTransform_eq]
    refine distinct_append_single (distinct_filter hK) ?_
    intro x hx
    have hmem := List.mem_filter.mp hx
    exact hAdd x hmem.1 (by simpa [bne_iff_ne] using hmem.2)
  · rw [removeTransform_eq]
    exact distinct_filter hK
  · rw [syncTransform_eq]
    exact distinct_filter hK

/-- C7 witness: concrete add, remove and sync on a one-record store. -/
theorem store_ops_preserve_unique_tmux_witness :
    distinctTmuxNames (addTransform
      ⟨"b", "vibeflow_claude-b", "claude", "", "", "", "", "", "", 0⟩
      [⟨"a", "vibeflow_claude-a", "claude", "", "", "", "", "", "", 0⟩]) = true ∧
    distinctTmuxNames (removeTransform "x"
      [⟨"a", "vibeflow_claude-a", "claude", "", "", "", "", "", "", 0⟩]) = true ∧
    distinctTmuxNames (syncTransform ["vibeflow_claude-a"]
      [⟨"a", "vibeflow_claude-a", "claude", "", "", "", "", "", "", 0⟩]) = true :=
  store_ops_preserve_unique_tmux
    [⟨"a", "vibeflow_claude-a", "claude", "", "", "", "", "", "", 0⟩]
    ⟨"b", "vibeflow_claude-b", "claude", "", "", "", "", "", "", 0⟩
    "x" ["vibeflow_claude-a"] (by decide) (by decide)

/-- C8: discover returns exactly the live names, in order and with
multiplicity, whose name equals no stored record's mux session name. -/
theorem discover_eq_filter (K : List SessionMeta) (L : List String) :
    discoverNames K L = L.filter (fun x => decide (∀ m ∈ K, m.tmuxSession ≠ x)) := by
  unfold discoverNames
  rw [foldl_append_filter]
  simp only [List.nil_append]
  apply List.filter_congr
  intro x _
  by_cases hall : ∀ m ∈ K, m.tmuxSession ≠ x
  · have hk : knownTmux K x = false := by
      simp only [knownTmux, List.any_eq_false]
      intro m hm
      simpa using hall m hm
    rw [hk]
    exact (decide_eq_true hall).symm
  · have hk : knownTmux K x = true := by
      simp only [knownTmux, List.any_eq_true]
      push_neg at hall
      obtain ⟨m, hm, he⟩ := hall
      exact ⟨m, hm, by simpa using he⟩
    rw [hk]
    exact (decide_eq_false hall).symm

/-- C9: add removes the records sharing the new record's name, appends
the new record at the end, and keeps every other record unchanged in
its original order; with no name collision it is a plain append. -/
theorem add_replaces_by_name (m : SessionMeta) (K : List SessionMeta) :
    addTransform m K = K.filter (fun x => x.name != m.name) ++ [m] ∧
    ((∀ x ∈ K, x.name ≠ m.name) → addTransform m K = K ++ [m]) := by
  refine ⟨addTransform_eq m K, fun h => ?_⟩
  rw [addTransform_eq]
  congr 1
  apply List.filter_eq_self.mpr
  intro x hx
  simpa [bne_iff_ne] using h x hx

/-- C9 witness: appending a record with a new name. -/
theorem add_replaces_by_name_witness :
    addTransform ⟨"b", "", "", "", "", "", "", "", "", 0⟩
        [⟨"a", "", "", "", "", "", "", "", "", 0⟩] =
      [⟨"a", "", "", "", "", "", "", "", "", 0⟩] ++
        [⟨"b", "", "", "", "", "", "", "", "", 0⟩] :=
  (add_replaces_by_name ⟨"b", "", "", "", "", "", "", "", "", 0⟩
    [⟨"a", "", "", "", "", "", "", "", "", 0⟩]).2 (by decide)
